import Mathlib

/-!
Verification of the quota-guarded, cached API-access layer.

Shallow embedding of the repository's core (`src/lib/google.ts` storage +
guard layer and the client-side retry orchestrator in `src/app/page.tsx`).

Timestamps (`Date.now()`) are modelled as integers (milliseconds).  The
filesystem under the cache directory is modelled as a finite map from file
name (the sanitized cache key) to file content; a file that cannot be read
or parsed is modelled by the `corrupt` constructor.  Write failures of
`fs.writeFileSync` are modelled by a boolean `wOk` parameter: when it is
`false` the write is a no-op (the code logs and swallows the exception).
The network is modelled by passing in the `HttpResponse` that `fetch`
would produce, together with a `netCalled` flag recording whether the
network was actually consulted.
-/

/-- JSON values, as produced by `JSON.parse` / `res.json()`.  Numbers are
modelled as integers (the fields the code inspects are integral). -/
inductive JsVal where
  | null
  | bool (b : Bool)
  | num (n : Int)
  | str (s : String)
  | arr (elems : List JsVal)
  | obj (fields : List (String × JsVal))

/-- JavaScript truthiness on JSON values (`if (cached)`, `msg || fallback`):
`null`, `false`, `0` and `""` are falsy; arrays and objects are truthy. -/
def jsTruthy : JsVal → Bool
  | .null => false
  | .bool b => b
  | .num n => n != 0
  | .str s => s != ""
  | .arr _ => true
  | .obj _ => true

/-- Field lookup on a JSON object (`body.error`, `e.message`); `undefined`
on non-objects, as with JavaScript optional chaining `?.`. -/
def JsVal.getField : JsVal → String → Option JsVal
  | .obj fields, name => fields.lookup name
  | _, _ => none

/-- Extraction of `body.error?.message` when it is a (string) message; the upstream error
body carries its human-readable text as a string under this path. -/
def errBodyMessage (body : JsVal) : Option String :=
  match body.getField "error" with
  | some e =>
    match e.getField "message" with
    | some (.str s) => some s
    | _ => none
  | none => none

/-- JavaScript `v || fallback` on an optional string: `undefined` (absent)
and the empty string are falsy and select the fallback. -/
def jsOrStr (v : Option String) (fallback : String) : String :=
  match v with
  | some s => if s = "" then fallback else s
  | none => fallback

/-- The constant `CACHE_TTL = 10 * 60 * 1000` (10 minutes), in milliseconds. -/
def CACHE_TTL : Int := 10 * 60 * 1000

/-- The constant `LOCKOUT_TTL = 60 * 1000` (60 seconds), in milliseconds. -/
def LOCKOUT_TTL : Int := 60 * 1000

/-- JavaScript `Math.ceil(r / 1000)` for an integer number of milliseconds `r`. -/
def mathCeilDiv1000 (r : Int) : Int := (r + 999).ediv 1000

/-- The character class kept by `key.replace(/[^a-zA-Z0-9_-]/g, '_')`. -/
def isSafeChar (c : Char) : Bool :=
  ('a' ≤ c && c ≤ 'z') || ('A' ≤ c && c ≤ 'Z') || ('0' ≤ c && c ≤ '9') ||
    c == '_' || c == '-'

/-- Per `getCacheFilePath`, the file name (sans directory and `.json` suffix,
both constant) a cache key is stored under — every character outside
`[a-zA-Z0-9_-]` is replaced by `_`. -/
def sanitizeKey (key : String) : String :=
  ⟨key.data.map (fun c => if isSafeChar c then c else '_')⟩

/-- The substitution `accountId.replace(/\//g, '_')`. -/
def replSlash (s : String) : String :=
  ⟨s.data.map (fun c => if c == '/' then '_' else c)⟩

/-- A persisted cache record `{data, expiry}`. -/
structure CacheEntry where
  data : JsVal
  expiry : Int

/-- Content of one cache file: a well-formed JSON entry, or a file that
`readFileSync`/`JSON.parse` fails on (`corrupt`). -/
inductive CacheFile where
  | entry (e : CacheEntry)
  | corrupt

/-- Content of the singleton lockout file `{expiry, setAt}` (only `expiry`
is ever read), or an unreadable/unparsable file. -/
inductive LockFile where
  | record (expiry : Int)
  | corrupt

/-- The persisted state under the cache directory: one file per sanitized
cache key, plus the singleton `_rate_limit_lockout.json` record. -/
structure Store where
  cache : String → Option CacheFile
  lockout : Option LockFile

/-- The store with no files at all. -/
def emptyStore : Store := ⟨fun _ => none, none⟩

/-- Write (or with `none`, delete) the cache file named `name`. -/
def Store.setCacheFile (st : Store) (name : String) (f : Option CacheFile) :
    Store :=
  { st with cache := fun k => if k = name then f else st.cache k }

/-- The read `getCached(key)`: returns the stored `entry.data` if the file exists,
parses and is unexpired; a read past expiry (`Date.now() > entry.expiry`)
deletes the file and misses; any I/O or parse failure is caught and
misses.  Returns the payload (or `none`) together with the store after
any lazy deletion. -/
def getCached (now : Int) (st : Store) (key : String) :
    Option JsVal × Store :=
  match st.cache (sanitizeKey key) with
  | none => (none, st)
  | some .corrupt => (none, st)
  | some (.entry e) =>
    if now > e.expiry then
      (none, st.setCacheFile (sanitizeKey key) none)
    else
      (some e.data, st)

/-- The write `setCache(key, data, ttlMs)`: writes `{data, expiry: Date.now() + ttlMs}`;
a write failure (`wOk = false`) is logged and swallowed, leaving the store
unchanged. -/
def setCache (now : Int) (wOk : Bool) (st : Store) (key : String)
    (data : JsVal) (ttlMs : Int) : Store :=
  if wOk then
    st.setCacheFile (sanitizeKey key) (some (.entry ⟨data, now + ttlMs⟩))
  else st

/-- Result of `isLockedOut()`. -/
structure LockStatus where
  locked : Bool
  remainingSeconds : Int
deriving DecidableEq

/-- The check `isLockedOut()`: reads the lockout file; a missing, unreadable or
unparsable file reports not locked; an expired record (`remaining <= 0`)
is deleted lazily and reports not locked; otherwise locked with
`Math.ceil(remaining / 1000)` seconds left. -/
def isLockedOut (now : Int) (st : Store) : LockStatus × Store :=
  match st.lockout with
  | none => (⟨false, 0⟩, st)
  | some .corrupt => (⟨false, 0⟩, st)
  | some (.record expiry) =>
    let remaining := expiry - now
    if remaining ≤ 0 then
      (⟨false, 0⟩, { st with lockout := none })
    else
      (⟨true, mathCeilDiv1000 remaining⟩, st)

/-- The write `setLockout()`: writes `{expiry: Date.now() + LOCKOUT_TTL, setAt}`;
a write failure is logged and swallowed. -/
def setLockout (now : Int) (wOk : Bool) (st : Store) : Store :=
  if wOk then { st with lockout := some (.record (now + LOCKOUT_TTL)) } else st

/-- The `ApiError` exception class: message, `statusCode`, `retryAfter`. -/
structure ApiError where
  message : String
  statusCode : Int
  retryAfter : Int
deriving DecidableEq

/-- An upstream HTTP response: status plus parsed JSON body. -/
structure HttpResponse where
  status : Int
  body : JsVal

/-- JavaScript `Response.ok`: status in the inclusive range 200–299. -/
def HttpResponse.isOk (r : HttpResponse) : Bool :=
  200 ≤ r.status && r.status ≤ 299

/-- The message thrown when the lockout guard blocks a call. -/
def lockedMsg (r : Int) : String :=
  "Rate limit active. Please wait " ++ toString r ++ " seconds."

/-- The generic fallback message for a fresh upstream 429. -/
def rateLimitExceededMsg (r : Int) : String :=
  "Rate limit exceeded. Please wait " ++ toString r ++ " seconds."

/-- Outcome of `guardedFetch`: the returned response or thrown `ApiError`,
the persisted state afterwards, and whether `fetch` was invoked. -/
structure GFOut where
  result : Except ApiError HttpResponse
  store : Store
  netCalled : Bool

/-- The wrapper `guardedFetch(url, options)`: checks the lockout first and, if locked,
throws an `ApiError` built from the remaining cool-down without touching
the network; otherwise performs the fetch (modelled by `resp`); on a
429 it sets the lockout and throws an `ApiError` whose message is the
body's `error.message` (falling back to a generic text) and whose
`retryAfter` is `Math.ceil(LOCKOUT_TTL / 1000)`; any other response is
returned as-is. -/
def guardedFetch (now : Int) (wOk : Bool) (st : Store)
    (resp : HttpResponse) : GFOut :=
  let lk := isLockedOut now st
  if lk.1.locked then
    { result := .error ⟨lockedMsg lk.1.remainingSeconds, 429,
        lk.1.remainingSeconds⟩,
      store := lk.2, netCalled := false }
  else if resp.status = 429 then
    let st2 := setLockout now wOk lk.2
    let retryAfter := mathCeilDiv1000 LOCKOUT_TTL
    let msg := jsOrStr (errBodyMessage resp.body)
      (rateLimitExceededMsg retryAfter)
    { result := .error ⟨msg, 429, retryAfter⟩, store := st2,
      netCalled := true }
  else
    { result := .ok resp, store := lk.2, netCalled := true }

/-- Errors a resource fetcher can throw: the `ApiError` propagated from
`guardedFetch`, or the generic `Error` thrown on a non-ok response. -/
inductive FetchErr where
  | api (e : ApiError)
  | upstream (message : String)

/-- Outcome of a resource fetcher. -/
structure FetchOut where
  result : Except FetchErr JsVal
  store : Store
  netCalled : Bool

/-- The rest of a resource fetcher after the cache lookup missed: guarded
fetch, non-ok handling, caching of the parsed payload. `key` and
`failMsg` are the fetcher's cache key and generic failure message. -/
def fetcherMiss (now : Int) (wOk : Bool) (st : Store) (resp : HttpResponse)
    (key : String) (failMsg : String) : FetchOut :=
  let g := guardedFetch now wOk st resp
  match g.result with
  | .error e =>
    { result := .error (.api e), store := g.store,
      netCalled := g.netCalled }
  | .ok res =>
    if !res.isOk then
      { result := .error (.upstream
          (jsOrStr (errBodyMessage res.body) failMsg)),
        store := g.store, netCalled := g.netCalled }
    else
      { result := .ok res.body,
        store := setCache now wOk g.store key res.body CACHE_TTL,
        netCalled := g.netCalled }

/-- Cache-lookup front end shared by the three fetchers: `if (cached)
return cached` — a JavaScript truthiness test on the payload. -/
def fetcherRun (now : Int) (wOk : Bool) (st : Store) (resp : HttpResponse)
    (key : String) (failMsg : String) : FetchOut :=
  let c := getCached now st key
  match c.1 with
  | some d =>
    if jsTruthy d then { result := .ok d, store := c.2, netCalled := false }
    else fetcherMiss now wOk c.2 resp key failMsg
  | none => fetcherMiss now wOk c.2 resp key failMsg

/-- Cache key of `fetchAccounts`. -/
def accountsKey : String := "accounts"

/-- Cache key of `fetchLocations`. -/
def locationsKey (accountId : String) : String :=
  "locations_" ++ replSlash accountId

/-- Cache key of `fetchReviews` (absent page token means `'first'`; the
empty string is falsy, so it also selects the sentinel). -/
def reviewsKey (accountId locationId : String) (pageToken : Option String) :
    String :=
  "reviews_" ++ replSlash accountId ++ "_" ++ replSlash locationId ++ "_" ++
    jsOrStr pageToken "first"

/-- The fetcher `fetchAccounts(accessToken)`. -/
def fetchAccounts (now : Int) (wOk : Bool) (st : Store)
    (resp : HttpResponse) : FetchOut :=
  fetcherRun now wOk st resp accountsKey "Failed to fetch accounts"

/-- The fetcher `fetchLocations(accessToken, accountId)`. -/
def fetchLocations (now : Int) (wOk : Bool) (st : Store)
    (accountId : String) (resp : HttpResponse) : FetchOut :=
  fetcherRun now wOk st resp (locationsKey accountId)
    "Failed to fetch locations"

/-- The fetcher `fetchReviews(accessToken, accountId, locationId, pageToken?)`. -/
def fetchReviews (now : Int) (wOk : Bool) (st : Store)
    (accountId locationId : String) (pageToken : Option String)
    (resp : HttpResponse) : FetchOut :=
  fetcherRun now wOk st resp (reviewsKey accountId locationId pageToken)
    "Failed to fetch reviews"

/-! Client-side retry orchestrator (`Home` in `src/app/page.tsx`).

The stored retry closures (`() => loadReviews(accountId, locationId,
pageToken)` and friends) are modelled by a first-order description of the
call they would re-issue, with exactly the parameters the closure
captures. -/

/-- The action a pending retry re-invokes. -/
inductive ClientAction where
  | loadAccounts
  | loadLocations (accountId : String)
  | loadReviews (accountId locationId : String) (pageToken : Option String)
deriving DecidableEq

/-- The orchestrator-relevant component state: `countdown`,
`pendingAction` and `error` (single `useState` slots). -/
structure ClientState where
  countdown : Int
  pendingAction : Option ClientAction
  error : Option String

/-- The localized message shown while a quota countdown runs. -/
def quotaRetryMsg : String :=
  "เกิน rate limit ของ Google API ระบบจะลองใหม่อัตโนมัติ..."

/-- The handler `handleQuotaError(retryAfter, retryFn)`: seeds the countdown with
`Math.max(retryAfter, 60)`, stores the retry closure, sets the error
message. -/
def handleQuotaError (retryAfter : Int) (retryFn : ClientAction)
    (s : ClientState) : ClientState :=
  { s with
    countdown := max retryAfter 60
    pendingAction := some retryFn
    error := some quotaRetryMsg }

/-- JavaScript `v || fallback` on an optional number (`data.retryAfter ||
60`): absent and `0` select the fallback. -/
def jsOrInt (v : Option Int) (fallback : Int) : Int :=
  match v with
  | some n => if n = 0 then fallback else n
  | none => fallback

/-- The reviews `429` branch of `loadReviews`: stores a retry of the very
same call — same account, location and page token. -/
def onReviews429 (accountId locationId : String) (pageToken : Option String)
    (retryAfterField : Option Int) (s : ClientState) : ClientState :=
  handleQuotaError (jsOrInt retryAfterField 60)
    (.loadReviews accountId locationId pageToken) s

/-- One evaluation of the countdown effect: at `countdown <= 0` it stops
the interval and, if a retry is pending, clears the pending action and the
error and fires the action; otherwise the interval decrements the
countdown by one (clamped at 0) after a second. Returns the new state and
the action fired (if any). -/
def clientTick (s : ClientState) : ClientState × Option ClientAction :=
  if s.countdown ≤ 0 then
    match s.pendingAction with
    | some a => ({ s with pendingAction := none, error := none }, some a)
    | none => (s, none)
  else
    ({ s with countdown := max 0 (s.countdown - 1) }, none)

/-- Run `n` effect evaluations, collecting the fired actions in order. -/
def clientRun : Nat → ClientState → ClientState × List ClientAction
  | 0, s => (s, [])
  | n + 1, s =>
    let t := clientTick s
    let r := clientRun n t.1
    (r.1, t.2.toList ++ r.2)

/-! Helper lemmas about the client run. -/

theorem clientRun_add (m n : Nat) (s : ClientState) :
    clientRun (m + n) s =
      ((clientRun n (clientRun m s).1).1,
        (clientRun m s).2 ++ (clientRun n (clientRun m s).1).2) := by
  induction m generalizing s with
  | zero => simp [clientRun]
  | succ k ih =>
    have h1 : k + 1 + n = (k + n) + 1 := by omega
    rw [h1]
    simp only [clientRun]
    rw [ih]
    simp [List.append_assoc]

/-- While the countdown is positive, ticks decrement it and fire nothing:
from countdown `n` (> 0 levels down to 0), the pending action and error
are untouched. -/
theorem clientRun_countdown (n : Nat) (p : Option ClientAction)
    (e : Option String) :
    clientRun n ⟨(n : Int), p, e⟩ = (⟨0, p, e⟩, []) := by
  induction n with
  | zero => simp [clientRun]
  | succ k ih =>
    have hpos : ¬ ((((k : Nat) + 1 : Nat) : Int) ≤ 0) := by
      push_cast; omega
    have hdec : max 0 ((((k : Nat) + 1 : Nat) : Int) - 1) = (k : Int) := by
      rw [max_eq_right] <;> push_cast <;> omega
    simp only [clientRun, clientTick, hpos, if_false, hdec]
    simpa using ih

/-- A fully idle state (no countdown, no pending action) absorbs any
number of ticks and fires nothing. -/
theorem clientRun_idle (n : Nat) (e : Option String) :
    clientRun n ⟨0, none, e⟩ = (⟨0, none, e⟩, []) := by
  induction n with
  | zero => simp [clientRun]
  | succ k ih =>
    simp only [clientRun, clientTick]
    norm_num
    simpa using ih

/-! Cache-key derivation as a function of the logical resource identity. -/

/-- The parameters that identify one fetch call: resource kind, account
id, location id and pagination cursor (absent cursor = first page). -/
inductive ResourceParams where
  | accounts
  | locations (accountId : String)
  | reviews (accountId locationId : String) (pageToken : Option String)
deriving DecidableEq

/-- The cache key each fetcher derives. -/
def cacheKeyOf : ResourceParams → String
  | .accounts => accountsKey
  | .locations a => locationsKey a
  | .reviews a l p => reviewsKey a l p

/-- The storage (file) key after `getCacheFilePath` sanitization. -/
def storageKey (p : ResourceParams) : String := sanitizeKey (cacheKeyOf p)

/-- A character that survives sanitization unchanged and is not the `_`
separator (so it cannot collide with a component boundary). -/
def idSafeChar (c : Char) : Bool := isSafeChar c && c != '_'

/-- An id over the collision-free alphabet `[a-zA-Z0-9-]`. -/
def GoodId (s : String) : Prop := ∀ c ∈ s.data, idSafeChar c = true

/-- A page token that is either absent or a nonempty id over the
collision-free alphabet, distinct from the `'first'` sentinel. -/
def GoodTok : Option String → Prop
  | none => True
  | some t => GoodId t ∧ t ≠ "" ∧ t ≠ "first"

/-- Resource parameters whose components are all collision-free. -/
def GoodParams : ResourceParams → Prop
  | .accounts => True
  | .locations a => GoodId a
  | .reviews a l p => GoodId a ∧ GoodId l ∧ GoodTok p

theorem GoodId.safe {s : String} (h : GoodId s) :
    ∀ c ∈ s.data, isSafeChar c = true := by
  intro c hc
  have := h c hc
  simp [idSafeChar, Bool.and_eq_true] at this
  exact this.1

theorem GoodId.no_underscore {s : String} (h : GoodId s) : '_' ∉ s.data := by
  intro hm
  have := h _ hm
  simp [idSafeChar] at this

theorem GoodId.no_slash {s : String} (h : GoodId s) :
    ∀ c ∈ s.data, (c == '/') = false := by
  intro c hc
  have := h c hc
  cases heq : c == '/' with
  | false => rfl
  | true =>
    exfalso
    have hc' : c = '/' := by simpa using heq
    subst hc'
    simp [idSafeChar, isSafeChar] at this

/-- Sanitization is the identity on strings over the safe alphabet. -/
theorem sanitizeKey_id {s : String} (h : ∀ c ∈ s.data, isSafeChar c = true) :
    sanitizeKey s = s := by
  apply String.ext
  show s.data.map _ = s.data
  rw [List.map_congr_left (g := id) (by intro c hc; simp [h c hc]),
    List.map_id]

/-- Slash replacement is the identity on slash-free strings. -/
theorem replSlash_id {s : String} (h : ∀ c ∈ s.data, (c == '/') = false) :
    replSlash s = s := by
  apply String.ext
  show s.data.map _ = s.data
  rw [List.map_congr_left (g := id) (by intro c hc; simp [h c hc]),
    List.map_id]

/-- Splitting at an occurrence of a separator absent from the left parts
is unambiguous. -/
theorem underscore_split (xs xs' : List Char) {ys ys' : List Char}
    (hx : '_' ∉ xs) (hx' : '_' ∉ xs')
    (h : xs ++ '_' :: ys = xs' ++ '_' :: ys') : xs = xs' ∧ ys = ys' := by
  induction xs generalizing xs' with
  | nil =>
    cases xs' with
    | nil => simpa using h
    | cons b t =>
      exfalso
      simp only [List.nil_append, List.cons_append, List.cons.injEq] at h
      apply hx'
      rw [h.1]
      exact List.mem_cons_self _ _
  | cons a t ih =>
    cases xs' with
    | nil =>
      exfalso
      simp only [List.nil_append, List.cons_append, List.cons.injEq] at h
      apply hx
      rw [← h.1]
      exact List.mem_cons_self _ _
    | cons b t' =>
      simp only [List.cons_append, List.cons.injEq] at h
      obtain ⟨hab, ht⟩ := h
      have hxt : '_' ∉ t := fun hm => hx (List.mem_cons_of_mem a hm)
      have hxt' : '_' ∉ t' := fun hm => hx' (List.mem_cons_of_mem b hm)
      obtain ⟨h1, h2⟩ := ih t' hxt hxt' ht
      exact ⟨by rw [hab, h1], h2⟩

theorem goodTok_goodId {p : Option String} (h : GoodTok p) :
    GoodId (jsOrStr p "first") := by
  cases p with
  | none =>
    intro c hc
    have hf : ∀ x ∈ ("first" : String).data, idSafeChar x = true := by decide
    exact hf c hc
  | some t =>
    obtain ⟨hg, hne, _⟩ := h
    simpa [jsOrStr, hne] using hg

theorem storageKey_accounts : storageKey .accounts = "accounts" := rfl

theorem storageKey_locations {a : String} (ha : GoodId a) :
    storageKey (.locations a) = "locations_" ++ a := by
  show sanitizeKey ("locations_" ++ replSlash a) = _
  rw [replSlash_id ha.no_slash]
  apply sanitizeKey_id
  intro c hc
  rw [String.data_append] at hc
  rcases List.mem_append.mp hc with h | h
  · have hlit : ∀ c ∈ ("locations_" : String).data, isSafeChar c = true := by
      decide
    exact hlit c h
  · exact ha.safe c h

theorem storageKey_reviews {a l : String} {p : Option String}
    (ha : GoodId a) (hl : GoodId l) (hp : GoodTok p) :
    storageKey (.reviews a l p) =
      "reviews_" ++ a ++ "_" ++ l ++ "_" ++ jsOrStr p "first" := by
  show sanitizeKey
      ("reviews_" ++ replSlash a ++ "_" ++ replSlash l ++ "_" ++
        jsOrStr p "first") = _
  rw [replSlash_id ha.no_slash, replSlash_id hl.no_slash]
  apply sanitizeKey_id
  intro c hc
  simp only [String.data_append, List.mem_append] at hc
  have hus : ∀ c ∈ ("_" : String).data, isSafeChar c = true := by decide
  have hrv : ∀ c ∈ ("reviews_" : String).data, isSafeChar c = true := by
    decide
  rcases hc with ((((h | h) | h) | h) | h) | h
  · exact hrv c h
  · exact ha.safe c h
  · exact hus c h
  · exact hl.safe c h
  · exact hus c h
  · exact (goodTok_goodId hp).safe c h

theorem reviews_concat_inj {a l q a' l' q' : String}
    (hna : '_' ∉ a.data) (hnl : '_' ∉ l.data)
    (hna' : '_' ∉ a'.data) (hnl' : '_' ∉ l'.data)
    (h : "reviews_" ++ a ++ "_" ++ l ++ "_" ++ q =
        "reviews_" ++ a' ++ "_" ++ l' ++ "_" ++ q') :
    a = a' ∧ l = l' ∧ q = q' := by
  have hd := congrArg String.data h
  simp only [String.data_append,
    show ("_" : String).data = ['_'] from rfl, List.append_assoc,
    List.singleton_append] at hd
  have hd2 := List.append_cancel_left hd
  obtain ⟨h1, hrest⟩ := underscore_split a.data a'.data hna hna' hd2
  obtain ⟨h2, h3⟩ := underscore_split l.data l'.data hnl hnl' hrest
  exact ⟨String.ext h1, String.ext h2, String.ext h3⟩

theorem tok_of_tokStr {p p' : Option String} (hp : GoodTok p)
    (hp' : GoodTok p') (h : jsOrStr p "first" = jsOrStr p' "first") :
    p = p' := by
  cases p with
  | none =>
    cases p' with
    | none => rfl
    | some t' =>
      obtain ⟨_, hne, hnf⟩ := hp'
      simp only [jsOrStr, hne, if_neg hne] at h
      exact absurd h.symm hnf
  | some t =>
    obtain ⟨_, hne, hnf⟩ := hp
    cases p' with
    | none =>
      simp only [jsOrStr, if_neg hne] at h
      exact absurd h hnf
    | some t' =>
      obtain ⟨_, hne', _⟩ := hp'
      simp only [jsOrStr, if_neg hne, if_neg hne'] at h
      rw [h]

theorem accounts_ne_locations (a : String) :
    ("accounts" : String) ≠ "locations_" ++ a := by
  intro h
  have hd := congrArg String.data h
  rw [String.data_append,
    show ("accounts" : String).data =
      ['a', 'c', 'c', 'o', 'u', 'n', 't', 's'] from rfl,
    show ("locations_" : String).data =
      ['l', 'o', 'c', 'a', 't', 'i', 'o', 'n', 's', '_'] from rfl] at hd
  simp only [List.cons_append, List.cons.injEq] at hd
  exact absurd hd.1 (by decide)

theorem accounts_ne_reviews (s : String) :
    ("accounts" : String) ≠ "reviews_" ++ s := by
  intro h
  have hd := congrArg String.data h
  rw [String.data_append,
    show ("accounts" : String).data =
      ['a', 'c', 'c', 'o', 'u', 'n', 't', 's'] from rfl,
    show ("reviews_" : String).data =
      ['r', 'e', 'v', 'i', 'e', 'w', 's', '_'] from rfl] at hd
  simp only [List.cons_append, List.cons.injEq] at hd
  exact absurd hd.1 (by decide)

theorem locations_ne_reviews (a s : String) :
    ("locations_" : String) ++ a ≠ "reviews_" ++ s := by
  intro h
  have hd := congrArg String.data h
  rw [String.data_append, String.data_append,
    show ("locations_" : String).data =
      ['l', 'o', 'c', 'a', 't', 'i', 'o', 'n', 's', '_'] from rfl,
    show ("reviews_" : String).data =
      ['r', 'e', 'v', 'i', 'e', 'w', 's', '_'] from rfl] at hd
  simp only [List.cons_append, List.cons.injEq] at hd
  exact absurd hd.1 (by decide)

/-! Fetcher-level helper lemmas. -/

theorem fetcherRun_hit (now : Int) (wOk : Bool) (st : Store)
    (resp : HttpResponse) (key failMsg : String) (d : JsVal) (exp : Int)
    (h : st.cache (sanitizeKey key) = some (.entry ⟨d, exp⟩))
    (ht : jsTruthy d = true) (hfresh : now ≤ exp) :
    fetcherRun now wOk st resp key failMsg = ⟨.ok d, st, false⟩ := by
  have hns : ¬ (now > exp) := by omega
  simp [fetcherRun, getCached, h, hns, ht]

theorem fetcherRun_falsy_hit (now : Int) (wOk : Bool) (st : Store)
    (resp : HttpResponse) (key failMsg : String) (d : JsVal) (exp : Int)
    (h : st.cache (sanitizeKey key) = some (.entry ⟨d, exp⟩))
    (ht : jsTruthy d = false) (hfresh : now ≤ exp) :
    fetcherRun now wOk st resp key failMsg =
      fetcherMiss now wOk st resp key failMsg := by
  have hns : ¬ (now > exp) := by omega
  simp [fetcherRun, getCached, h, hns, ht]

theorem fetcherMiss_locked (now ex : Int) (wOk : Bool) (st : Store)
    (resp : HttpResponse) (key failMsg : String)
    (h : st.lockout = some (.record ex)) (hfut : now < ex) :
    fetcherMiss now wOk st resp key failMsg =
      ⟨.error (.api ⟨lockedMsg (mathCeilDiv1000 (ex - now)), 429,
        mathCeilDiv1000 (ex - now)⟩), st, false⟩ := by
  have hc : ¬ (ex - now ≤ 0) := by omega
  simp [fetcherMiss, guardedFetch, isLockedOut, h, hc]

theorem clientRun_after_quota (r : Int) (a : ClientAction)
    (s : ClientState) (n : Nat) :
    clientRun ((max r 60).toNat + 1 + n) (handleQuotaError r a s) =
      (⟨0, none, none⟩, [a]) := by
  have h60 : (60 : Int) ≤ max r 60 := le_max_right r 60
  have hcast : (((max r 60).toNat : Nat) : Int) = max r 60 :=
    Int.toNat_of_nonneg (by omega)
  have hs1 : handleQuotaError r a s =
      ⟨max r 60, some a, some quotaRetryMsg⟩ := rfl
  have hcd : clientRun ((max r 60).toNat)
      ⟨max r 60, some a, some quotaRetryMsg⟩ =
      (⟨0, some a, some quotaRetryMsg⟩, []) := by
    have h := clientRun_countdown ((max r 60).toNat) (some a)
      (some quotaRetryMsg)
    rw [hcast] at h
    exact h
  have h1 : clientRun 1 ⟨0, some a, some quotaRetryMsg⟩ =
      (⟨0, none, none⟩, [a]) := rfl
  have hfire : clientRun (1 + n) ⟨0, some a, some quotaRetryMsg⟩ =
      (⟨0, none, none⟩, [a]) := by
    rw [clientRun_add 1 n, h1]
    simp [clientRun_idle n none]
  rw [hs1, Nat.add_assoc, clientRun_add ((max r 60).toNat) (1 + n), hcd]
  simp [hfire]

/-! Claim theorems. -/

/-- C1: while the persisted lockout record's expiry lies in the future,
every `guardedFetch` call — whatever the resource/response — fails
immediately with a 429 `ApiError` carrying the remaining cool-down in
seconds and no network request is issued; moreover the network is ever
consulted only when the guard reports not locked. -/
theorem claim_C1_lockout_blocks_all_calls (now ex : Int) (wOk : Bool)
    (st : Store) (resp : HttpResponse)
    (h : st.lockout = some (.record ex)) (hfut : now < ex) :
    ((guardedFetch now wOk st resp).result =
        .error ⟨lockedMsg (mathCeilDiv1000 (ex - now)), 429,
          mathCeilDiv1000 (ex - now)⟩ ∧
      (guardedFetch now wOk st resp).netCalled = false) ∧
    ∀ (st2 : Store) (r2 : HttpResponse),
      (guardedFetch now wOk st2 r2).netCalled = true →
      (isLockedOut now st2).1.locked = false := by
  constructor
  · have hc : ¬ (ex - now ≤ 0) := by omega
    have hlk : isLockedOut now st = (⟨true, mathCeilDiv1000 (ex - now)⟩, st) := by
      simp [isLockedOut, h, hc]
    constructor <;> simp [guardedFetch, hlk]
  · intro st2 r2 hnet
    by_cases hl : (isLockedOut now st2).1.locked
    · exfalso
      simp [guardedFetch, hl] at hnet
    · simpa using hl

theorem claim_C1_witness :
    (⟨fun _ => none, some (.record 5000)⟩ : Store).lockout =
      some (.record 5000) ∧
    (0 : Int) < 5000 ∧
    ((guardedFetch 0 true ⟨fun _ => none, some (.record 5000)⟩
        ⟨200, .obj []⟩).result =
      .error ⟨lockedMsg (mathCeilDiv1000 (5000 - 0)), 429,
        mathCeilDiv1000 (5000 - 0)⟩ ∧
      (guardedFetch 0 true ⟨fun _ => none, some (.record 5000)⟩
        ⟨200, .obj []⟩).netCalled = false) :=
  ⟨rfl, by decide,
    (claim_C1_lockout_blocks_all_calls 0 5000 true _ _ rfl (by decide)).1⟩

/-- C2: on a fresh upstream 429 (guard not locked), `guardedFetch` writes
a lockout record expiring exactly `LOCKOUT_TTL` (60 s) from now and
throws a 429 `ApiError` whose `retryAfter` is the fixed
`ceil(LOCKOUT_TTL/1000) = 60` — independent of anything in the response
body — and whose message is the body's `error.message` when a nonempty
one is present, the generic fallback when none is. -/
theorem claim_C2_fresh_429_trips_lockout (now : Int) (st : Store)
    (resp : HttpResponse)
    (hnl : (isLockedOut now st).1.locked = false)
    (h429 : resp.status = 429) :
    (guardedFetch now true st resp).result =
      .error ⟨jsOrStr (errBodyMessage resp.body) (rateLimitExceededMsg 60),
        429, 60⟩ ∧
    (∀ m, errBodyMessage resp.body = some m → m ≠ "" →
      jsOrStr (errBodyMessage resp.body) (rateLimitExceededMsg 60) = m) ∧
    (errBodyMessage resp.body = none →
      jsOrStr (errBodyMessage resp.body) (rateLimitExceededMsg 60) =
        rateLimitExceededMsg 60) ∧
    (guardedFetch now true st resp).store.lockout =
      some (.record (now + LOCKOUT_TTL)) ∧
    LOCKOUT_TTL = 60 * 1000 := by
  have hra : mathCeilDiv1000 LOCKOUT_TTL = 60 := by decide
  refine ⟨?_, ?_, ?_, ?_, rfl⟩
  · simp [guardedFetch, hnl, h429, hra]
  · intro m hm hne
    simp [jsOrStr, hm, hne]
  · intro hm
    simp [jsOrStr, hm]
  · simp [guardedFetch, hnl, h429, setLockout]

theorem claim_C2_witness :
    (isLockedOut 0 emptyStore).1.locked = false ∧
    (⟨429, .obj [("error", .obj [("message", .str "Quota exceeded")])]⟩ :
      HttpResponse).status = 429 ∧
    (guardedFetch 0 true emptyStore
      ⟨429, .obj [("error", .obj [("message", .str "Quota exceeded")])]⟩).result =
      .error ⟨jsOrStr (errBodyMessage
          (.obj [("error", .obj [("message", .str "Quota exceeded")])]))
        (rateLimitExceededMsg 60), 429, 60⟩ ∧
    (guardedFetch 0 true emptyStore
      ⟨429, .obj [("error", .obj [("message", .str "Quota exceeded")])]⟩).store.lockout =
      some (.record (0 + LOCKOUT_TTL)) := by
  have h := claim_C2_fresh_429_trips_lockout 0 emptyStore
    ⟨429, .obj [("error", .obj [("message", .str "Quota exceeded")])]⟩
    rfl rfl
  exact ⟨rfl, rfl, h.1, h.2.2.2.1⟩

/-- C3: after `setCache(k, v, ttl)` at time `t0`, a `getCached(k)` at
`t1 <= t0 + ttl` returns `v` (store untouched), while a `getCached(k)` at
`t1 > t0 + ttl` returns absent and deletes the record, leaving no file
for `k`. -/
theorem claim_C3_cache_ttl_roundtrip (k : String) (v : JsVal)
    (ttl t0 t1 : Int) (st : Store) :
    (t1 ≤ t0 + ttl →
      getCached t1 (setCache t0 true st k v ttl) k =
        (some v, setCache t0 true st k v ttl)) ∧
    (t0 + ttl < t1 →
      (getCached t1 (setCache t0 true st k v ttl) k).1 = none ∧
      ((getCached t1 (setCache t0 true st k v ttl) k).2).cache
        (sanitizeKey k) = none) := by
  have hlook : (setCache t0 true st k v ttl).cache (sanitizeKey k) =
      some (.entry ⟨v, t0 + ttl⟩) := by
    simp [setCache, Store.setCacheFile]
  constructor
  · intro hfresh
    have hns : ¬ (t1 > t0 + ttl) := by omega
    simp [getCached, hlook, hns]
  · intro hstale
    have hs : t1 > t0 + ttl := hstale
    constructor
    · simp [getCached, hlook, hs]
    · simp [getCached, hlook, hs, Store.setCacheFile]

theorem claim_C3_witness :
    ((500 : Int) ≤ 0 + 1000) ∧ ((0 : Int) + 1000 < 2000) ∧
    getCached 500 (setCache 0 true emptyStore "k" (.str "x") 1000) "k" =
      (some (.str "x"), setCache 0 true emptyStore "k" (.str "x") 1000) ∧
    (getCached 2000 (setCache 0 true emptyStore "k" (.str "x") 1000)
      "k").1 = none ∧
    ((getCached 2000 (setCache 0 true emptyStore "k" (.str "x") 1000)
      "k").2).cache (sanitizeKey "k") = none := by
  refine ⟨by decide, by decide, ?_, ?_, ?_⟩
  · exact (claim_C3_cache_ttl_roundtrip "k" (.str "x") 1000 0 500
      emptyStore).1 (by decide)
  · exact ((claim_C3_cache_ttl_roundtrip "k" (.str "x") 1000 0 2000
      emptyStore).2 (by decide)).1
  · exact ((claim_C3_cache_ttl_roundtrip "k" (.str "x") 1000 0 2000
      emptyStore).2 (by decide)).2

/-- C5: lockout recovery is lazy: the first `isLockedOut` check at or
after the record's expiry deletes the record and reports not locked, and
a `guardedFetch` at such a time does reach the network. -/
theorem claim_C5_lazy_lockout_recovery (now ex : Int) (wOk : Bool)
    (st : Store) (resp : HttpResponse)
    (h : st.lockout = some (.record ex)) (hexp : ex ≤ now) :
    isLockedOut now st = (⟨false, 0⟩, { st with lockout := none }) ∧
    (isLockedOut now st).2.lockout = none ∧
    (guardedFetch now wOk st resp).netCalled = true := by
  have hc : ex - now ≤ 0 := by omega
  have h1 : isLockedOut now st = (⟨false, 0⟩, { st with lockout := none }) := by
    simp [isLockedOut, h, hc]
  refine ⟨h1, by rw [h1], ?_⟩
  by_cases h429 : resp.status = 429 <;> simp [guardedFetch, h1, h429]

theorem claim_C5_witness :
    (⟨fun _ => none, some (.record 5000)⟩ : Store).lockout =
      some (.record 5000) ∧
    (5000 : Int) ≤ 6000 ∧
    isLockedOut 6000 ⟨fun _ => none, some (.record 5000)⟩ =
      (⟨false, 0⟩,
        { (⟨fun _ => none, some (.record 5000)⟩ : Store) with
          lockout := none }) ∧
    (guardedFetch 6000 true ⟨fun _ => none, some (.record 5000)⟩
      ⟨200, .obj []⟩).netCalled = true := by
  have h := claim_C5_lazy_lockout_recovery 6000 5000 true
    ⟨fun _ => none, some (.record 5000)⟩ ⟨200, .obj []⟩ rfl (by decide)
  exact ⟨rfl, by decide, h.1, h.2.2⟩

/-- C6 counterexample: a fresh (unexpired) cached entry whose payload is
the JSON value `null` does NOT short-circuit `fetchAccounts` — with the
lockout tripped the call fails with a 429 `ApiError` instead of returning
the cached payload, refuting the claim that any fresh entry is returned
verbatim irrespective of the lockout. -/
theorem claim_C6_counterexample :
    (⟨fun k => if k = "accounts" then some (.entry ⟨.null, 100000⟩)
        else none, some (.record 60000)⟩ : Store).cache
      (sanitizeKey accountsKey) = some (.entry ⟨.null, 100000⟩) ∧
    (0 : Int) ≤ 100000 ∧
    (fetchAccounts 0 true
      ⟨fun k => if k = "accounts" then some (.entry ⟨.null, 100000⟩)
        else none, some (.record 60000)⟩ ⟨200, .obj []⟩).result =
      .error (.api ⟨lockedMsg 60, 429, 60⟩) ∧
    (fetchAccounts 0 true
      ⟨fun k => if k = "accounts" then some (.entry ⟨.null, 100000⟩)
        else none, some (.record 60000)⟩ ⟨200, .obj []⟩).result ≠
      .ok .null := by
  refine ⟨rfl, by decide, rfl, ?_⟩
  intro hcontra
  rw [show (fetchAccounts 0 true
      ⟨fun k => if k = "accounts" then some (.entry ⟨.null, 100000⟩)
        else none, some (.record 60000)⟩ ⟨200, .obj []⟩).result =
      .error (.api ⟨lockedMsg 60, 429, 60⟩) from rfl] at hcontra
  exact Except.noConfusion hcontra

/-- C6 (amended): if the derived cache key holds a fresh (unexpired)
entry whose payload is truthy, each fetcher returns the cached payload
verbatim with no network call and no state change — in particular the
lockout guard is never consulted, so this holds even while a lockout is
tripped (the store, including its lockout record, is arbitrary). -/
theorem claim_C6_cache_hit_bypasses_guard (now : Int) (wOk : Bool)
    (st : Store) (resp : HttpResponse) (d : JsVal) (exp : Int)
    (ht : jsTruthy d = true) (hfresh : now ≤ exp) :
    (st.cache (sanitizeKey accountsKey) = some (.entry ⟨d, exp⟩) →
      fetchAccounts now wOk st resp = ⟨.ok d, st, false⟩) ∧
    (∀ a, st.cache (sanitizeKey (locationsKey a)) = some (.entry ⟨d, exp⟩) →
      fetchLocations now wOk st a resp = ⟨.ok d, st, false⟩) ∧
    (∀ a l p,
      st.cache (sanitizeKey (reviewsKey a l p)) = some (.entry ⟨d, exp⟩) →
      fetchReviews now wOk st a l p resp = ⟨.ok d, st, false⟩) := by
  refine ⟨fun h => ?_, fun a h => ?_, fun a l p h => ?_⟩
  · exact fetcherRun_hit now wOk st resp accountsKey
      "Failed to fetch accounts" d exp h ht hfresh
  · exact fetcherRun_hit now wOk st resp (locationsKey a)
      "Failed to fetch locations" d exp h ht hfresh
  · exact fetcherRun_hit now wOk st resp (reviewsKey a l p)
      "Failed to fetch reviews" d exp h ht hfresh

theorem claim_C6_witness :
    jsTruthy (.str "payload") = true ∧ (0 : Int) ≤ 100000 ∧
    (⟨fun k => if k = "accounts" then some (.entry ⟨.str "payload", 100000⟩)
        else none, some (.record 60000)⟩ : Store).cache
      (sanitizeKey accountsKey) = some (.entry ⟨.str "payload", 100000⟩) ∧
    fetchAccounts 0 true
      ⟨fun k => if k = "accounts" then some (.entry ⟨.str "payload", 100000⟩)
        else none, some (.record 60000)⟩ ⟨200, .obj []⟩ =
      ⟨.ok (.str "payload"),
        ⟨fun k => if k = "accounts" then
          some (.entry ⟨.str "payload", 100000⟩) else none,
          some (.record 60000)⟩, false⟩ :=
  ⟨by decide, by decide, rfl,
    (claim_C6_cache_hit_bypasses_guard 0 true _ ⟨200, .obj []⟩
      (.str "payload") 100000 (by decide) (by decide)).1 rfl⟩

/-- C9: storage failures never surface: a corrupt cache file reads as a
miss with the store untouched, a corrupt lockout file reads as not
locked, failed `setCache`/`setLockout` writes change nothing, and a
fetcher whose cache write fails still returns the fetched payload; a
failed lockout write still leaves the 429 `ApiError` thrown. -/
theorem claim_C9_io_failures_degrade_silently (now : Int) (st : Store)
    (k : String) (v : JsVal) (ttl : Int) (resp : HttpResponse) :
    (st.cache (sanitizeKey k) = some .corrupt →
      getCached now st k = (none, st)) ∧
    (st.lockout = some .corrupt →
      isLockedOut now st = (⟨false, 0⟩, st)) ∧
    setCache now false st k v ttl = st ∧
    setLockout now false st = st ∧
    (st.cache (sanitizeKey accountsKey) = none → st.lockout = none →
      resp.status ≠ 429 → resp.isOk = true →
      (fetchAccounts now false st resp).result = .ok resp.body) ∧
    (st.cache (sanitizeKey accountsKey) = none → st.lockout = none →
      resp.status = 429 →
      (fetchAccounts now false st resp).result =
        .error (.api ⟨jsOrStr (errBodyMessage resp.body)
          (rateLimitExceededMsg 60), 429, 60⟩)) := by
  have hra : mathCeilDiv1000 LOCKOUT_TTL = 60 := by decide
  refine ⟨fun h => ?_, fun h => ?_, rfl, rfl, fun hc hl hs ho => ?_,
    fun hc hl h429 => ?_⟩
  · simp [getCached, h]
  · simp [isLockedOut, h]
  · simp [fetchAccounts, fetcherRun, fetcherMiss, getCached, guardedFetch,
      isLockedOut, hc, hl, hs, ho]
  · simp [fetchAccounts, fetcherRun, fetcherMiss, getCached, guardedFetch,
      isLockedOut, hc, hl, h429, hra]

theorem claim_C9_witness :
    (⟨fun k => if k = "k" then some .corrupt else none,
        some .corrupt⟩ : Store).cache (sanitizeKey "k") = some .corrupt ∧
    getCached 0 ⟨fun k => if k = "k" then some .corrupt else none,
      some .corrupt⟩ "k" =
      (none, ⟨fun k => if k = "k" then some .corrupt else none,
        some .corrupt⟩) ∧
    isLockedOut 0 ⟨fun k => if k = "k" then some .corrupt else none,
      some .corrupt⟩ =
      (⟨false, 0⟩, ⟨fun k => if k = "k" then some .corrupt else none,
        some .corrupt⟩) ∧
    setCache 0 false emptyStore "k" (.str "v") 1000 = emptyStore ∧
    setLockout 0 false emptyStore = emptyStore ∧
    (fetchAccounts 0 false emptyStore ⟨200, .obj []⟩).result =
      .ok (.obj []) ∧
    (fetchAccounts 0 false emptyStore ⟨429, .obj []⟩).result =
      .error (.api ⟨jsOrStr (errBodyMessage (.obj []))
        (rateLimitExceededMsg 60), 429, 60⟩) := by
  refine ⟨rfl, ?_, ?_, ?_, ?_, ?_, ?_⟩
  · exact (claim_C9_io_failures_degrade_silently 0 _ "k" (.str "v") 1000
      ⟨200, .obj []⟩).1 rfl
  · exact (claim_C9_io_failures_degrade_silently 0
      ⟨fun k => if k = "k" then some .corrupt else none, some .corrupt⟩
      "k" (.str "v") 1000 ⟨200, .obj []⟩).2.1 rfl
  · exact (claim_C9_io_failures_degrade_silently 0 emptyStore "k"
      (.str "v") 1000 ⟨200, .obj []⟩).2.2.1
  · exact (claim_C9_io_failures_degrade_silently 0 emptyStore "k"
      (.str "v") 1000 ⟨200, .obj []⟩).2.2.2.1
  · exact (claim_C9_io_failures_degrade_silently 0 emptyStore "k"
      (.str "v") 1000 ⟨200, .obj []⟩).2.2.2.2.1 rfl rfl (by decide) rfl
  · exact (claim_C9_io_failures_degrade_silently 0 emptyStore "k"
      (.str "v") 1000 ⟨429, .obj []⟩).2.2.2.2.2 rfl rfl rfl

/-- C10: a fresh cached payload that is falsy (`null`, `0`, `""`,
`false`) is treated as a cache miss by every fetcher — the call proceeds
to the guarded upstream fetch — and therefore does not bypass an active
lockout: with the lockout tripped, such a call fails with a 429
`ApiError` and no network I/O. -/
theorem claim_C10_falsy_payload_is_miss (now : Int) (wOk : Bool)
    (st : Store) (resp : HttpResponse) (d : JsVal) (exp : Int)
    (ht : jsTruthy d = false) (hfresh : now ≤ exp) :
    (st.cache (sanitizeKey accountsKey) = some (.entry ⟨d, exp⟩) →
      fetchAccounts now wOk st resp =
        fetcherMiss now wOk st resp accountsKey
          "Failed to fetch accounts" ∧
      (∀ ex, st.lockout = some (.record ex) → now < ex →
        fetchAccounts now wOk st resp =
          ⟨.error (.api ⟨lockedMsg (mathCeilDiv1000 (ex - now)), 429,
            mathCeilDiv1000 (ex - now)⟩), st, false⟩)) ∧
    (∀ a, st.cache (sanitizeKey (locationsKey a)) = some (.entry ⟨d, exp⟩) →
      fetchLocations now wOk st a resp =
        fetcherMiss now wOk st resp (locationsKey a)
          "Failed to fetch locations" ∧
      (∀ ex, st.lockout = some (.record ex) → now < ex →
        fetchLocations now wOk st a resp =
          ⟨.error (.api ⟨lockedMsg (mathCeilDiv1000 (ex - now)), 429,
            mathCeilDiv1000 (ex - now)⟩), st, false⟩)) ∧
    (∀ a l p,
      st.cache (sanitizeKey (reviewsKey a l p)) = some (.entry ⟨d, exp⟩) →
      fetchReviews now wOk st a l p resp =
        fetcherMiss now wOk st resp (reviewsKey a l p)
          "Failed to fetch reviews" ∧
      (∀ ex, st.lockout = some (.record ex) → now < ex →
        fetchReviews now wOk st a l p resp =
          ⟨.error (.api ⟨lockedMsg (mathCeilDiv1000 (ex - now)), 429,
            mathCeilDiv1000 (ex - now)⟩), st, false⟩)) := by
  refine ⟨fun h => ?_, fun a h => ?_, fun a l p h => ?_⟩
  · have hm := fetcherRun_falsy_hit now wOk st resp accountsKey
      "Failed to fetch accounts" d exp h ht hfresh
    exact ⟨hm, fun ex hl hfut => by
      rw [show fetchAccounts now wOk st resp = _ from hm]
      exact fetcherMiss_locked now ex wOk st resp accountsKey
        "Failed to fetch accounts" hl hfut⟩
  · have hm := fetcherRun_falsy_hit now wOk st resp (locationsKey a)
      "Failed to fetch locations" d exp h ht hfresh
    exact ⟨hm, fun ex hl hfut => by
      rw [show fetchLocations now wOk st a resp = _ from hm]
      exact fetcherMiss_locked now ex wOk st resp (locationsKey a)
        "Failed to fetch locations" hl hfut⟩
  · have hm := fetcherRun_falsy_hit now wOk st resp (reviewsKey a l p)
      "Failed to fetch reviews" d exp h ht hfresh
    exact ⟨hm, fun ex hl hfut => by
      rw [show fetchReviews now wOk st a l p resp = _ from hm]
      exact fetcherMiss_locked now ex wOk st resp (reviewsKey a l p)
        "Failed to fetch reviews" hl hfut⟩

theorem claim_C10_witness :
    jsTruthy .null = false ∧ (0 : Int) ≤ 100000 ∧ (0 : Int) < 60000 ∧
    fetchAccounts 0 true
      ⟨fun k => if k = "accounts" then some (.entry ⟨.null, 100000⟩)
        else none, some (.record 60000)⟩ ⟨200, .obj []⟩ =
      ⟨.error (.api ⟨lockedMsg (mathCeilDiv1000 (60000 - 0)), 429,
        mathCeilDiv1000 (60000 - 0)⟩),
        ⟨fun k => if k = "accounts" then some (.entry ⟨.null, 100000⟩)
          else none, some (.record 60000)⟩, false⟩ :=
  ⟨by decide, by decide, by decide,
    (((claim_C10_falsy_payload_is_miss 0 true _ ⟨200, .obj []⟩ .null
      100000 (by decide) (by decide)).1 rfl).2 60000 rfl (by decide))⟩

/-- C7: on a quota error with retry hint `r` the orchestrator seeds the
countdown with `max(r, 60)` and stores the failed action (for the
reviews call site, with the original account, location and page-token
parameters); the countdown then decrements once per tick and, on
reaching zero, the error is cleared and the stored action is re-invoked
exactly once — the fired-action trace over any longer run is exactly
`[a]`, ending in the idle state. -/
theorem claim_C7_countdown_fires_exactly_once (r : Int) (a : ClientAction)
    (s0 : ClientState) (n : Nat) :
    (handleQuotaError r a s0).countdown = max r 60 ∧
    (handleQuotaError r a s0).pendingAction = some a ∧
    (∀ acc loc tok rf s,
      (onReviews429 acc loc tok rf s).pendingAction =
        some (.loadReviews acc loc tok)) ∧
    clientRun ((max r 60).toNat + 1 + n) (handleQuotaError r a s0) =
      (⟨0, none, none⟩, [a]) :=
  ⟨rfl, rfl, fun _ _ _ _ _ => rfl, clientRun_after_quota r a s0 n⟩

/-- C8: the orchestrator holds at most one pending retry: a second quota
error while one countdown is pending replaces the countdown (re-seeded
from the second error) and the stored action outright, and running the
resulting state fires only the second action, exactly once. -/
theorem claim_C8_second_quota_error_replaces (s : ClientState)
    (r1 r2 : Int) (a1 a2 : ClientAction) (n : Nat) :
    handleQuotaError r2 a2 (handleQuotaError r1 a1 s) =
      handleQuotaError r2 a2 s ∧
    (handleQuotaError r2 a2 (handleQuotaError r1 a1 s)).countdown =
      max r2 60 ∧
    (handleQuotaError r2 a2 (handleQuotaError r1 a1 s)).pendingAction =
      some a2 ∧
    clientRun ((max r2 60).toNat + 1 + n)
        (handleQuotaError r2 a2 (handleQuotaError r1 a1 s)) =
      (⟨0, none, none⟩, [a2]) :=
  ⟨rfl, rfl, rfl, clientRun_after_quota r2 a2 _ n⟩

/-- C4 counterexample: two calls that differ in parameters affecting the
response — account `a` with location `b_c` versus account `a_b` with
location `c`, both first page — produce the same storage key
`reviews_a_b_c_first`, refuting injectivity of the key derivation. -/
theorem claim_C4_counterexample :
    storageKey (.reviews "a" "b_c" none) =
      storageKey (.reviews "a_b" "c" none) ∧
    (ResourceParams.reviews "a" "b_c" none) ≠
      (.reviews "a_b" "c" none) := by
  exact ⟨rfl, by decide⟩

/-- C4 (amended): key derivation is deterministic — equal parameters
always give equal storage keys — and injective on parameters whose
account/location ids and page tokens use only the collision-free
alphabet `[a-zA-Z0-9-]` (no `_`, no `/`, no sanitized characters), with
a present page token nonempty and distinct from the `'first'` sentinel:
such distinct parameter tuples never share a storage key. -/
theorem claim_C4_key_deterministic_and_injective_on_safe_ids
    (p q : ResourceParams) (hp : GoodParams p) (hq : GoodParams q) :
    (p = q → storageKey p = storageKey q) ∧
    (storageKey p = storageKey q → p = q) := by
  refine ⟨fun h => by rw [h], fun h => ?_⟩
  cases p with
  | accounts =>
    cases q with
    | accounts => rfl
    | locations a' =>
      rw [storageKey_accounts, storageKey_locations hq] at h
      exact absurd h (accounts_ne_locations a')
    | reviews a' l' p' =>
      obtain ⟨ha', hl', hp'⟩ := hq
      rw [storageKey_accounts, storageKey_reviews ha' hl' hp'] at h
      exact absurd h (accounts_ne_reviews _)
  | locations a =>
    cases q with
    | accounts =>
      rw [storageKey_accounts, storageKey_locations hp] at h
      exact absurd h.symm (accounts_ne_locations a)
    | locations a' =>
      rw [storageKey_locations hp, storageKey_locations hq] at h
      have hd := congrArg String.data h
      rw [String.data_append, String.data_append] at hd
      have := List.append_cancel_left hd
      rw [String.ext this]
    | reviews a' l' p' =>
      obtain ⟨ha', hl', hp'⟩ := hq
      rw [storageKey_locations hp, storageKey_reviews ha' hl' hp'] at h
      exact absurd h (locations_ne_reviews a _)
  | reviews a l pk =>
    obtain ⟨ha, hl, hpk⟩ := hp
    cases q with
    | accounts =>
      rw [storageKey_accounts, storageKey_reviews ha hl hpk] at h
      exact absurd h.symm (accounts_ne_reviews _)
    | locations a' =>
      rw [storageKey_locations hq, storageKey_reviews ha hl hpk] at h
      exact absurd h.symm (locations_ne_reviews a' _)
    | reviews a' l' pk' =>
      obtain ⟨ha', hl', hpk'⟩ := hq
      rw [storageKey_reviews ha hl hpk, storageKey_reviews ha' hl' hpk']
        at h
      obtain ⟨h1, h2, h3⟩ := reviews_concat_inj ha.no_underscore
        hl.no_underscore ha'.no_underscore hl'.no_underscore h
      rw [h1, h2, tok_of_tokStr hpk hpk' h3]

theorem claim_C4_witness :
    GoodParams (.reviews "acc" "loc" (some "tok")) ∧
    GoodParams (.locations "acc") ∧
    ((ResourceParams.reviews "acc" "loc" (some "tok")) = .locations "acc" →
      storageKey (.reviews "acc" "loc" (some "tok")) =
        storageKey (.locations "acc")) ∧
    (storageKey (.reviews "acc" "loc" (some "tok")) =
        storageKey (.locations "acc") →
      (ResourceParams.reviews "acc" "loc" (some "tok")) =
        .locations "acc") := by
  have hg1 : GoodParams (.reviews "acc" "loc" (some "tok")) := by
    refine ⟨?_, ?_, ?_, by decide, by decide⟩ <;>
      (intro c hc; revert hc; revert c; decide)
  have hg2 : GoodParams (.locations "acc") := by
    intro c hc; revert hc; revert c; decide
  exact ⟨hg1, hg2,
    (claim_C4_key_deterministic_and_injective_on_safe_ids _ _ hg1 hg2).1,
    (claim_C4_key_deterministic_and_injective_on_safe_ids _ _ hg1 hg2).2⟩
